import Mathlib

/-!
# Verification of the ZapLink access-control engine

A shallow embedding of the ZapLink backend (Express + Prisma, TypeScript) in
Lean 4, covering the parts of the code the specification's claims are about:

* `src/controllers/zap.controller.ts` — `createZap`, `getZapByShortId`,
  `getZapMetadata` (the variant whose resolution path checks, in order:
  existence, expiry, view quota, delayed release, quiz, password);
* `src/utils/encryption.ts` — `encryptText`, `decryptText`,
  `validateEncryptionKey`;
* `src/utils/accessControl.ts` — `hasQuizProtection`, `verifyQuizAnswer`,
  `hashQuizAnswer`;
* `src/utils/cleanup.ts` — `deleteExpiredZaps`, `deleteOverLimitZaps`, and the
  `destroyZap` helper they call.

JavaScript strings are modelled as `List Char` (`Str`), Node `Buffer`s as
`List (Fin 256)` (`Bytes`), timestamps (`Date.getTime()`) as `Int`
milliseconds, and the Prisma store as a list of `Zap` records.  External
primitives with a documented contract — bcrypt and the Node crypto
API (PBKDF2 / AES-256-GCM / base64) — are abstracted as structures whose
fields state exactly that contract; concrete instances are provided so that
every theorem can be evaluated on closed inputs.
-/

/-- JavaScript string, modelled as its list of code points. -/
abbrev Str := List Char

/-- A single byte of a Node `Buffer`. -/
abbrev Byte := Fin 256

/-- A Node `Buffer`, as its list of bytes. -/
abbrev Bytes := List Byte

/-- JavaScript truthiness of a string: truthy iff non-empty. -/
def strTruthy (s : Str) : Bool := !s.isEmpty

/-- JavaScript truthiness of a nullable / possibly-undefined string. -/
def optTruthy : Option Str → Bool
  | some s => strTruthy s
  | none => false

/-- JavaScript truthiness of a nullable number (`null` and `0` are falsy). -/
def numTruthy : Option Int → Bool
  | some n => !(n == 0)
  | none => false

/-- The whitespace characters removed by `String.prototype.trim`. -/
def jsWhitespace (c : Char) : Bool :=
  c == ' ' || c == '\t' || c == '\n' || c == '\r'

/-- Model of `String.prototype.trim`: strip leading and trailing whitespace. -/
def jsTrim (s : Str) : Str :=
  ((s.dropWhile jsWhitespace).reverse.dropWhile jsWhitespace).reverse

/-- Model of `String.prototype.toLowerCase`, restricted to the simple one-to-one case
mapping Lean's `Char.toLower` implements. -/
def jsToLower (s : Str) : Str := s.map Char.toLower

/-- The contract of the bcrypt library used for password and quiz-answer
hashes: `compare p h` succeeds exactly when `h` was produced by hashing `p`.
The salt hidden inside a bcrypt digest is irrelevant to the claims, so
`hash` is modelled as a function. -/
structure BcryptModel where
  hash : Str → Str
  compare : Str → Str → Bool
  compare_hash : ∀ p q : Str, compare p (hash q) = (p == q)

/-- A concrete instance of the bcrypt contract, used to evaluate theorems on
closed inputs: digests are the plaintext itself. -/
def plainBcrypt : BcryptModel where
  hash := id
  compare := fun p h => p == h
  compare_hash := fun _ _ => rfl

/-- One row of the Prisma `Zap` table, with the columns the engine reads.
`expiresAt` and `unlockAt` are epoch milliseconds; `viewLimit` is nullable. -/
structure Zap where
  id : Nat
  shortId : Str
  qrId : Str
  ztype : Str
  name : Option Str
  cloudUrl : Option Str
  originalUrl : Option Str
  passwordHash : Option Str
  quizQuestion : Option Str
  quizAnswerHash : Option Str
  unlockAt : Option Int
  expiresAt : Option Int
  viewLimit : Option Int
  viewCount : Int
  deriving Repr, DecidableEq

/-- The durable state the engine mutates: the `Zap` table plus the list of
Cloudinary URLs passed to `deleteFromCloudinary` (external blob releases). -/
structure EngineState where
  zaps : List Zap
  releasedBlobs : List Str
  deriving Repr, DecidableEq

/-- Lookup by `shortId`: the `prisma.zap.findUnique` call. -/
def findByShortId (s : EngineState) (sid : Str) : Option Zap :=
  s.zaps.find? (fun z => z.shortId == sid)

/-- From `accessControl.ts`, `hasQuizProtection`:
`!!(zap.quizQuestion && zap.quizAnswerHash)`. -/
def hasQuizProtection (z : Zap) : Bool :=
  optTruthy z.quizQuestion && optTruthy z.quizAnswerHash

/-- From `accessControl.ts`, `verifyQuizAnswer`: `bcrypt.compare(providedAnswer,
hashedAnswer)` — the provided answer is compared verbatim. -/
def verifyQuizAnswer (B : BcryptModel) (providedAnswer hashedAnswer : Str) : Bool :=
  B.compare providedAnswer hashedAnswer

/-- From `accessControl.ts`, `hashQuizAnswer`:
`bcrypt.hash(answer.trim().toLowerCase(), rounds)`. -/
def hashQuizAnswer (B : BcryptModel) (answer : Str) : Str :=
  B.hash (jsToLower (jsTrim answer))

/-- The contract of the Node crypto primitives `encryption.ts` uses:
PBKDF2 key derivation, AES-256-GCM with a 16-byte auth tag, and base64
encoding.  `b64` never emits the `:` delimiter, and decoding inverts
encoding — exactly the properties of real base64 the envelope format relies
on.  `gcmEncrypt` returns the raw ciphertext bytes and the auth tag;
`gcmDecrypt` authenticates and inverts it. -/
structure CryptoModel where
  pbkdf2 : Str → Bytes → Bytes
  gcmEncrypt : Bytes → Bytes → Str → Bytes × Bytes
  gcmDecrypt : Bytes → Bytes → Bytes → Bytes → Except Unit Str
  b64 : Bytes → Str
  b64decode : Str → Bytes
  b64_left_inverse : ∀ b, b64decode (b64 b) = b
  b64_no_colon : ∀ b, ':' ∉ b64 b
  gcm_left_inverse : ∀ k iv t,
    gcmDecrypt k iv (gcmEncrypt k iv t).2 (gcmEncrypt k iv t).1 = .ok t
  gcm_tag_len : ∀ k iv t, (gcmEncrypt k iv t).2.length = 16

/-- Model of `Array.prototype.join` with the colon separator, used on the
four envelope fields. -/
def joinColon : List Str → Str
  | [] => []
  | [p] => p
  | p :: rest => p ++ ':' :: joinColon rest

/-- Model of `String.prototype.split` at the colon.  The result is never empty, so the
head/tail of the recursive call are total. -/
def splitColon : Str → List Str
  | [] => [[]]
  | c :: rest =>
    if c = ':' then [] :: splitColon rest
    else (c :: (splitColon rest).headI) :: (splitColon rest).tail

/-- The error kinds `encryption.ts` can throw, by the message it attaches:
missing / too-short master key (configuration), empty input, wrong field
count, wrong field length (corruption), and GCM authentication failure. -/
inductive EncError
  | configMissing
  | configTooShort
  | emptyInput
  | badFormat
  | badSaltLen
  | badIvLen
  | badTagLen
  | authFailed
  deriving Repr, DecidableEq

/-- From `encryption.ts`, `validateEncryptionKey`: reject an absent / blank key,
then a key shorter than 32 characters. -/
def validateEncryptionKey (key? : Option Str) : Except EncError Unit :=
  if !optTruthy key? || (jsTrim (key?.getD [])).length == 0 then
    .error .configMissing
  else if (key?.getD []).length < 32 then
    .error .configTooShort
  else
    .ok ()

/-- From `encryption.ts`, `encryptText`.  The fresh random draws
(`crypto.randomBytes(64)` salt, `crypto.randomBytes(16)` iv) enter as the
`salt` and `iv` arguments.  Output format: `salt:iv:authTag:ciphertext`,
each field base64. -/
def encryptText (M : CryptoModel) (key? : Option Str) (salt iv : Bytes)
    (text : Str) : Except EncError Str :=
  match validateEncryptionKey key? with
  | .error e => .error e
  | .ok _ =>
    if text.length == 0 then .error .emptyInput
    else
      let key := M.pbkdf2 (key?.getD []) salt
      let (ct, tag) := M.gcmEncrypt key iv text
      .ok (joinColon [M.b64 salt, M.b64 iv, M.b64 tag, M.b64 ct])

/-- From `encryption.ts`, `decryptText`: validate the key, reject empty input, a
field count other than 4, and wrong salt / iv / tag lengths, then derive the
key from the stored salt and open the authenticated ciphertext. -/
def decryptText (M : CryptoModel) (key? : Option Str) (enc : Str) :
    Except EncError Str :=
  match validateEncryptionKey key? with
  | .error e => .error e
  | .ok _ =>
    if enc.length == 0 then .error .emptyInput
    else
      match splitColon enc with
      | [saltB, ivB, tagB, ctB] =>
        let salt := M.b64decode saltB
        let iv := M.b64decode ivB
        let tag := M.b64decode tagB
        if !(salt.length == 64) then .error .badSaltLen
        else if !(iv.length == 16) then .error .badIvLen
        else if !(tag.length == 16) then .error .badTagLen
        else
          match M.gcmDecrypt (M.pbkdf2 (key?.getD []) salt) iv tag
              (M.b64decode ctB) with
          | .ok t => .ok t
          | .error _ => .error .authFailed
      | _ => .error .badFormat

/-- From `encryption.ts`, the `isEncrypted` heuristic: four non-empty colon-separated
fields of base64-alphabet characters. -/
def isEncrypted (text : Str) : Bool :=
  strTruthy text &&
    (match splitColon text with
     | parts =>
       parts.length == 4 &&
         parts.all (fun p =>
           !p.isEmpty && p.all (fun c =>
             c.isAlphanum || c == '+' || c == '/' || c == '=')))

/-- The tag `createZap` puts before encrypted inline text:
`"TEXT_CONTENT:"`. -/
def textTag : Str := "TEXT_CONTENT:".data

/-- The tag put before extracted Word-document text: `"DOCX_CONTENT:"`. -/
def docxTag : Str := "DOCX_CONTENT:".data

/-- The tag put before extracted presentation text: `"PPTX_CONTENT:"`. -/
def pptxTag : Str := "PPTX_CONTENT:".data

/-- Outcome of one `GET /api/zaps/:shortId` resolution, as the discrete
response the handler sends (gate denials, quota denials, or content). -/
inductive ResolveResult
  | notFound
  | expired
  | quotaExhaustedPre
  | locked (unlockAt : Int)
  | quizRequired (question : Option Str)
  | quizFailed
  | passwordRequired
  | passwordInvalid
  | quotaExhaustedFinal
  | contentRedirect (url : Str)
  | contentText (text : Str)
  | decryptFailed
  | contentDoc (payload : Str)
  | contentImage (dataUrl : Str)
  | invalidImage
  | contentFile (url : Str)
  | contentMissing
  deriving Repr, DecidableEq

/-- The eager clean-up `getZapByShortId` runs when it finds an expired or
over-quota record: `deleteFromCloudinary(zap.cloudUrl)` when the blob URL is
truthy, followed by a `prisma.zap.delete` of the row by `id`. -/
def deleteZapEager (s : EngineState) (zap : Zap) : EngineState :=
  let s1 :=
    if optTruthy zap.cloudUrl then
      { s with releasedBlobs := s.releasedBlobs ++ [zap.cloudUrl.getD []] }
    else s
  { s1 with zaps := s1.zaps.filter (fun z => !(z.id == zap.id)) }

/-- The expiry test: with `expiresAt` set, compare the timestamps as
`currentTime.getTime() > expirationTime.getTime()`. -/
def expiryGateFires (zap : Zap) (now : Int) : Bool :=
  match zap.expiresAt with
  | some e => decide (now > e)
  | none => false

/-- The quota pre-check: `zap.viewLimit !== null && zap.viewCount >= zap.viewLimit`. -/
def quotaGateFires (zap : Zap) : Bool :=
  match zap.viewLimit with
  | some l => decide (zap.viewCount ≥ l)
  | none => false

/-- The delayed-release test: with `unlockAt` set, compare
`now.getTime() < unlockTime.getTime()`. -/
def lockGateFires (zap : Zap) (now : Int) : Bool :=
  match zap.unlockAt with
  | some u => decide (now < u)
  | none => false

/-- The unconditional update: the `prisma.zap.update` call that sets
`viewCount` of every row matching `sid` to `v`. -/
def setViewCount (s : EngineState) (sid : Str) (v : Int) : EngineState :=
  { s with
    zaps := s.zaps.map (fun z =>
      if z.shortId == sid then { z with viewCount := v } else z) }

/-- The `WHERE` clause of the raw conditional increment:
`"shortId" = sid AND ("viewLimit" IS NULL OR "viewCount" < "viewLimit")`. -/
def condIncrMatches (sid : Str) (z : Zap) : Bool :=
  z.shortId == sid &&
    (match z.viewLimit with
     | none => true
     | some l => decide (z.viewCount < l))

/-- The raw `UPDATE "Zap" SET "viewCount" = "viewCount" + 1 WHERE ...`:
returns the number of affected rows together with the new state. -/
def condIncrViewCount (s : EngineState) (sid : Str) : Nat × EngineState :=
  ((s.zaps.filter (condIncrMatches sid)).length,
   { s with
     zaps := s.zaps.map (fun z =>
       if condIncrMatches sid z then { z with viewCount := z.viewCount + 1 }
       else z) })

/-- The JS regex `^data:(image\/[a-zA-Z]+);base64,(.+)$` as a Boolean test:
a `data:image/` head, one or more ASCII letters, `;base64,`, and a non-empty
remainder. -/
def isDataImage (s : Str) : Bool :=
  "data:image/".data.isPrefixOf s &&
    (let afterHead := s.drop ("data:image/".data.length)
     let mime := afterHead.takeWhile (fun c => c.isAlpha)
     !mime.isEmpty &&
       ";base64,".data.isPrefixOf (afterHead.drop mime.length) &&
       !((afterHead.drop mime.length).drop (";base64,".data.length)).isEmpty)

/-- The content-serving tail of `getZapByShortId`, reached after every gate
and both view-count updates: branch on the shape of `zap.originalUrl`
(external URL / sealed text / extracted document / inline image), else fall
back to `zap.cloudUrl`.  The document branch responds with the raw substring
before its decryption attempt, so its effective payload is undecrypted. -/
def serveContent (M : CryptoModel) (key? : Option Str) (zap : Zap)
    (s : EngineState) : ResolveResult × EngineState :=
  if optTruthy zap.originalUrl then
    let u := zap.originalUrl.getD []
    if ("http://".data).isPrefixOf u || "https://".data.isPrefixOf u then
      (.contentRedirect u, s)
    else if textTag.isPrefixOf u then
      match decryptText M key? (u.drop 13) with
      | .ok t => (.contentText t, s)
      | .error _ => (.decryptFailed, s)
    else if docxTag.isPrefixOf u || pptxTag.isPrefixOf u then
      (.contentDoc (u.drop 13), s)
    else if isDataImage u then (.contentImage u, s)
    else (.invalidImage, s)
  else
    match zap.cloudUrl with
    | some url => if strTruthy url then (.contentFile url, s) else (.contentMissing, s)
    | none => (.contentMissing, s)

/-- The two consecutive view-count writes of `getZapByShortId`: the
unconditional `prisma.zap.update` setting `viewCount: zap.viewCount + 1`
followed by the raw conditional increment; a zero row count from the latter
yields the 410 "Zap view limit reached." response. -/
def incrementPhase (M : CryptoModel) (key? : Option Str) (zap : Zap)
    (s : EngineState) (sid : Str) : ResolveResult × EngineState :=
  let s1 := setViewCount s sid (zap.viewCount + 1)
  let updateResult := (condIncrViewCount s1 sid).1
  let s2 := (condIncrViewCount s1 sid).2
  if updateResult == 0 then (.quotaExhaustedFinal, s2)
  else serveContent M key? zap s2

/-- The password gate of `getZapByShortId`: with a stored hash, an absent
password yields 401 "Password required." and a mismatch yields 401
"Incorrect password."; otherwise fall through to the view-count updates. -/
def passwordGate (B : BcryptModel) (M : CryptoModel) (key? : Option Str)
    (zap : Zap) (s : EngineState) (sid : Str) (password : Option Str) :
    ResolveResult × EngineState :=
  if optTruthy zap.passwordHash then
    if !optTruthy password then (.passwordRequired, s)
    else if B.compare (password.getD []) (zap.passwordHash.getD []) then
      incrementPhase M key? zap s sid
    else (.passwordInvalid, s)
  else incrementPhase M key? zap s sid

/-- The quiz gate of `getZapByShortId`: with quiz protection, an absent
answer yields 423 `quiz_required` (carrying the question) and a wrong answer
yields 401 "Incorrect quiz answer."; otherwise fall through to the password
gate. -/
def quizGate (B : BcryptModel) (M : CryptoModel) (key? : Option Str)
    (zap : Zap) (s : EngineState) (sid : Str)
    (password quizAnswer : Option Str) : ResolveResult × EngineState :=
  if hasQuizProtection zap then
    if !optTruthy quizAnswer then (.quizRequired zap.quizQuestion, s)
    else if verifyQuizAnswer B (quizAnswer.getD []) (zap.quizAnswerHash.getD []) then
      passwordGate B M key? zap s sid password
    else (.quizFailed, s)
  else passwordGate B M key? zap s sid password

/-- Resolution handler `getZapByShortId`: look the record up by
`shortId`, then run the gates in source order — existence, expiry (with
eager blob release and record deletion), view quota (same eager clean-up),
delayed release, quiz, password — then the two view-count writes, then
content serving. -/
def resolveZap (B : BcryptModel) (M : CryptoModel) (key? : Option Str)
    (s : EngineState) (sid : Str) (password quizAnswer : Option Str)
    (now : Int) : ResolveResult × EngineState :=
  match findByShortId s sid with
  | none => (.notFound, s)
  | some zap =>
    if expiryGateFires zap now then (.expired, deleteZapEager s zap)
    else if quotaGateFires zap then (.quotaExhaustedPre, deleteZapEager s zap)
    else if lockGateFires zap now then (.locked (zap.unlockAt.getD 0), s)
    else quizGate B M key? zap s sid password quizAnswer

/-- The metadata payload `getZapMetadata` returns on success. -/
structure ZapMeta where
  name : Option Str
  ztype : Str
  hasQuiz : Bool
  quizQuestion : Option Str
  hasDelayedAccess : Bool
  isDelayedLocked : Bool
  unlockAt : Option Int
  hasPassword : Bool
  viewsRemaining : Option Int
  deriving Repr, DecidableEq

/-- Outcome of `GET /api/zaps/:shortId/metadata`. -/
inductive MetaResult
  | notFound
  | expired
  | limitExceeded
  | ok (m : ZapMeta)
  deriving Repr, DecidableEq

/-- Metadata handler `getZapMetadata`: look the record up, deny 410 when expired or (with a
truthy `viewLimit`) when `viewCount >= viewLimit`, then — with no credential
of any kind — return name, type, the quiz question when one is truthy, the
delayed-access flags, the password flag, and the remaining view budget. -/
def getZapMetadata (s : EngineState) (sid : Str) (now : Int) : MetaResult :=
  match findByShortId s sid with
  | none => .notFound
  | some zap =>
    if (match zap.expiresAt with
        | some e => decide (now > e)
        | none => false) then
      .expired
    else if numTruthy zap.viewLimit &&
        decide (zap.viewCount ≥ zap.viewLimit.getD 0) then
      .limitExceeded
    else
      .ok
        { name := zap.name
          ztype := zap.ztype
          hasQuiz := optTruthy zap.quizQuestion
          quizQuestion :=
            if optTruthy zap.quizQuestion then zap.quizQuestion else none
          hasDelayedAccess := zap.unlockAt.isSome
          isDelayedLocked :=
            match zap.unlockAt with
            | some u => decide (now < u)
            | none => false
          unlockAt := zap.unlockAt
          hasPassword := optTruthy zap.passwordHash
          viewsRemaining :=
            if numTruthy zap.viewLimit then
              some (max 0 (zap.viewLimit.getD 0 - zap.viewCount))
            else none }

/-- The failures `createZap` can signal for a text item: over-long text
(400), an `encryptText` throw, or the store's unique-constraint violation on
insert — the last two both reach the blanket `catch` and surface as the
generic 500 "Internal server error". -/
inductive CreateErr
  | tooLong
  | enc (e : EncError)
  | uniqueViolation
  deriving Repr, DecidableEq

/-- The HTTP status and body `createZap`'s error paths send: the length check
answers 400 directly; every thrown error (encryption failure, insert
conflict) is caught by the single `catch (err)` and answered with the same
generic 500. -/
def createErrStatus : CreateErr → Nat × Str
  | .tooLong => (400, "Text content is too long. Maximum 10,000 characters allowed.".data)
  | .enc _ => (500, "Internal server error".data)
  | .uniqueViolation => (500, "Internal server error".data)

/-- The record `createZap` builds for inline text: content stored as
`TEXT_CONTENT:` + envelope, password hashed when truthy, `viewLimit` kept
when truthy (`viewLimit ? parseInt(viewLimit) : null`), `viewCount`
defaulting to 0, and no quiz or delayed release. -/
def createTextZap (B : BcryptModel) (M : CryptoModel) (key? : Option Str)
    (salt iv : Bytes) (newId : Nat) (sid qr : Str) (name : Option Str)
    (text : Str) (password : Option Str) (viewLimit expiresAt : Option Int) :
    Except CreateErr Zap :=
  if text.length > 10000 then .error .tooLong
  else
    match encryptText M key? salt iv text with
    | .error e => .error (.enc e)
    | .ok env =>
      .ok
        { id := newId
          shortId := sid
          qrId := qr
          ztype := "TEXT".data
          name := name
          cloudUrl := none
          originalUrl := some (textTag ++ env)
          passwordHash :=
            if optTruthy password then some (B.hash (password.getD [])) else none
          quizQuestion := none
          quizAnswerHash := none
          unlockAt := none
          expiresAt := expiresAt
          viewLimit := if numTruthy viewLimit then viewLimit else none
          viewCount := 0 }

/-- Creation handler `createZap` end to end for a text item: draw `shortId` and `zapId` as the
first two `nanoid()` outputs of the generator stream `gen` — with no store
lookup and no retry — build the record, and insert it; a `shortId` / `qrId`
already present makes `prisma.zap.create` throw its unique-constraint error. -/
def createZapFull (B : BcryptModel) (M : CryptoModel) (key? : Option Str)
    (salt iv : Bytes) (gen : Nat → Str) (s : EngineState) (newId : Nat)
    (name : Option Str) (text : Str) (password : Option Str)
    (viewLimit expiresAt : Option Int) :
    Except CreateErr (Str × EngineState) :=
  let sid := gen 0
  let qr := gen 1
  match createTextZap B M key? salt iv newId sid qr name text password
      viewLimit expiresAt with
  | .error e => .error e
  | .ok zap =>
    if s.zaps.any (fun z => z.shortId == sid || z.qrId == qr) then
      .error .uniqueViolation
    else .ok (sid, { s with zaps := s.zaps ++ [zap] })

/-- Bulk deletion helper `destroyZap`: a `prisma.zap.deleteMany` over the
given `shortId`s — record deletion only, no blob release. -/
def destroyZapState (s : EngineState) (sids : List Str) : EngineState :=
  { s with zaps := s.zaps.filter (fun z => !(sids.contains z.shortId)) }

/-- From `cleanup.ts`, `deleteExpiredZaps` (sweep pass 1): select records with
`expiresAt` strictly before `now`, and hand their `shortId`s to
`destroyZap`.  No Cloudinary call is made. -/
def deleteExpiredZaps (s : EngineState) (now : Int) : EngineState :=
  let expiredZaps := s.zaps.filter (fun z =>
    match z.expiresAt with
    | some e => decide (e < now)
    | none => false)
  if expiredZaps.length == 0 then s
  else destroyZapState s (expiredZaps.map (fun z => z.shortId))

/-- From `cleanup.ts`, `deleteOverLimitZaps` (sweep pass 2): select records with a
non-null view limit and `viewCount >=` it, and hand their `shortId`s to
`destroyZap`.  No Cloudinary call is made.  (The raw SQL names the limit
column `"maxViews"`, its name in the initial migration.) -/
def deleteOverLimitZaps (s : EngineState) : EngineState :=
  let overLimitZaps := s.zaps.filter (fun z =>
    match z.viewLimit with
    | some l => decide (z.viewCount ≥ l)
    | none => false)
  if overLimitZaps.length == 0 then s
  else destroyZapState s (overLimitZaps.map (fun z => z.shortId))

/-- Every code point is below `0x110000`. -/
theorem charToNat_lt (c : Char) : c.toNat < 1114112 := by
  rcases c.valid with h | h
  · exact Nat.lt_trans h (by norm_num)
  · exact h.2

/-- Three little-endian base-256 digits of one code point. -/
def charBytes (c : Char) : Bytes :=
  [⟨c.toNat % 256, Nat.mod_lt _ (by norm_num)⟩,
   ⟨c.toNat / 256 % 256, Nat.mod_lt _ (by norm_num)⟩,
   ⟨c.toNat / 65536, by have := charToNat_lt c; omega⟩]

/-- Serialize a string to bytes, three bytes per code point. -/
def strToBytes : Str → Bytes
  | [] => []
  | c :: rest => charBytes c ++ strToBytes rest

/-- Parse the three-bytes-per-code-point serialization back. -/
def bytesToStr : Bytes → Str
  | b0 :: b1 :: b2 :: rest =>
    Char.ofNat (b0.val + 256 * b1.val + 65536 * b2.val) :: bytesToStr rest
  | _ => []

theorem bytesToStr_strToBytes (t : Str) : bytesToStr (strToBytes t) = t := by
  induction t with
  | nil => rfl
  | cons c rest ih =>
    have hlt := charToNat_lt c
    have hval : c.toNat % 256 + 256 * (c.toNat / 256 % 256) +
        65536 * (c.toNat / 65536) = c.toNat := by omega
    calc bytesToStr (strToBytes (c :: rest))
        = Char.ofNat (c.toNat % 256 + 256 * (c.toNat / 256 % 256) +
            65536 * (c.toNat / 65536)) :: bytesToStr (strToBytes rest) := rfl
      _ = c :: rest := by rw [hval, Char.ofNat_toNat, ih]

/-- Encode a byte as one character above the ASCII range of `:`. -/
def byteChar (v : Byte) : Char := Char.ofNat (v.val + 64)

/-- Decode `byteChar`. -/
def charByte (c : Char) : Byte := ⟨(c.toNat - 64) % 256, Nat.mod_lt _ (by norm_num)⟩

theorem toNat_ofNat_of_lt {n : Nat} (h : n < 55296) : (Char.ofNat n).toNat = n := by
  have hv : n.isValidChar := Or.inl h
  rw [Char.ofNat, dif_pos hv]
  rfl

theorem charByte_byteChar (v : Byte) : charByte (byteChar v) = v := by
  have hb := v.isLt
  have h : (Char.ofNat (v.val + 64)).toNat = v.val + 64 :=
    toNat_ofNat_of_lt (by omega)
  apply Fin.ext
  simp only [charByte, byteChar, h]
  omega

theorem byteChar_ne_colon (v : Byte) : byteChar v ≠ ':' := by
  intro hcontra
  have h : (Char.ofNat (v.val + 64)).toNat = v.val + 64 :=
    toNat_ofNat_of_lt (by have := v.isLt; omega)
  have hcb : (byteChar v).toNat = v.val + 64 := h
  rw [hcontra] at hcb
  have h58 : (':').toNat = 58 := rfl
  omega

/-- A concrete instance of the crypto contract, used to evaluate theorems on
closed inputs: derived keys are empty, the "cipher" is the three-byte
serialization of the plaintext with an all-zero 16-byte tag, and "base64"
maps each byte to one character outside the delimiter range. -/
def toyCrypto : CryptoModel where
  pbkdf2 := fun _ _ => []
  gcmEncrypt := fun _ _ t => (strToBytes t, List.replicate 16 ⟨0, by norm_num⟩)
  gcmDecrypt := fun _ _ _ ct => .ok (bytesToStr ct)
  b64 := fun b => b.map byteChar
  b64decode := fun s => s.map charByte
  b64_left_inverse := by
    intro b
    simp [List.map_map, Function.comp_def, charByte_byteChar]
  b64_no_colon := by
    intro b hmem
    rcases List.mem_map.mp hmem with ⟨v, _, hv⟩
    exact byteChar_ne_colon v hv
  gcm_left_inverse := by
    intro k iv t
    simp [bytesToStr_strToBytes]
  gcm_tag_len := by
    intro k iv t
    simp

theorem splitColon_ne_nil (s : Str) : splitColon s ≠ [] := by
  cases s with
  | nil => simp [splitColon]
  | cons c rest => simp only [splitColon]; split <;> simp

/-- Splitting after a delimiter-free chunk prepends the chunk to the first
field of the remainder's split. -/
theorem splitColon_append (p s : Str) (hfree : ':' ∉ p) :
    splitColon (p ++ s) = (p ++ (splitColon s).headI) :: (splitColon s).tail := by
  induction p with
  | nil =>
    simp only [List.nil_append]
    rcases h : splitColon s with _ | ⟨x, xs⟩
    · exact absurd h (splitColon_ne_nil s)
    · simp [h]
  | cons c p ih =>
    have hc : c ≠ ':' := fun hc => hfree (hc ▸ List.mem_cons_self c p)
    have hp : ':' ∉ p := fun hp => hfree (List.mem_cons_of_mem c hp)
    simp only [List.cons_append, splitColon, if_neg hc, List.append_eq]
    rw [ih hp]
    simp

/-- Splitting inverts joining when every field is delimiter-free. -/
theorem splitColon_joinColon :
    ∀ ps : List Str, ps ≠ [] → (∀ p ∈ ps, ':' ∉ p) →
      splitColon (joinColon ps) = ps
  | [], h, _ => absurd rfl h
  | [p], _, hfree => by
    have h0 : ':' ∉ p := hfree p (List.mem_singleton_self p)
    have := splitColon_append p [] h0
    simpa [joinColon, splitColon] using this
  | p :: q :: rest, _, hfree => by
    have h0 : ':' ∉ p := hfree p (List.mem_cons_self p _)
    have hrest : ∀ x ∈ q :: rest, ':' ∉ x := fun x hx =>
      hfree x (List.mem_cons_of_mem p hx)
    have ih := splitColon_joinColon (q :: rest) (by simp) hrest
    have hj : joinColon (p :: q :: rest) = p ++ ':' :: joinColon (q :: rest) := rfl
    rw [hj, splitColon_append p (':' :: joinColon (q :: rest)) h0]
    simp [splitColon, ih]

/-- C6: for every text input (short lengths, multi-byte characters,
newlines), opening a sealed envelope returns the original text:
`decryptText (encryptText text) = text` under a fixed configured master
secret, for any salt and iv of the lengths `crypto.randomBytes` draws. -/
theorem c6_envelope_round_trip (M : CryptoModel) (key? : Option Str)
    (salt iv : Bytes) (text : Str) (hsalt : salt.length = 64)
    (hiv : iv.length = 16) (htext : text ≠ [])
    (hkey : validateEncryptionKey key? = .ok ()) :
    ∃ env, encryptText M key? salt iv text = .ok env ∧
      decryptText M key? env = .ok text := by
  have hlen : (text.length == 0) = false := by
    cases text with
    | nil => exact absurd rfl htext
    | cons a l => rfl
  refine ⟨joinColon [M.b64 salt, M.b64 iv,
    M.b64 (M.gcmEncrypt (M.pbkdf2 (key?.getD []) salt) iv text).2,
    M.b64 (M.gcmEncrypt (M.pbkdf2 (key?.getD []) salt) iv text).1], ?_, ?_⟩
  · simp [encryptText, hkey, hlen]
  · have hsplit : splitColon (joinColon [M.b64 salt, M.b64 iv,
        M.b64 (M.gcmEncrypt (M.pbkdf2 (key?.getD []) salt) iv text).2,
        M.b64 (M.gcmEncrypt (M.pbkdf2 (key?.getD []) salt) iv text).1]) =
        [M.b64 salt, M.b64 iv,
         M.b64 (M.gcmEncrypt (M.pbkdf2 (key?.getD []) salt) iv text).2,
         M.b64 (M.gcmEncrypt (M.pbkdf2 (key?.getD []) salt) iv text).1] := by
      apply splitColon_joinColon _ (by simp)
      intro p hp
      simp only [List.mem_cons, List.not_mem_nil, or_false] at hp
      rcases hp with rfl | rfl | rfl | rfl <;> exact M.b64_no_colon _
    have hne : (joinColon [M.b64 salt, M.b64 iv,
        M.b64 (M.gcmEncrypt (M.pbkdf2 (key?.getD []) salt) iv text).2,
        M.b64 (M.gcmEncrypt (M.pbkdf2 (key?.getD []) salt) iv text).1]).length ≠ 0 := by
      simp [joinColon]
    have hneb : ((joinColon [M.b64 salt, M.b64 iv,
        M.b64 (M.gcmEncrypt (M.pbkdf2 (key?.getD []) salt) iv text).2,
        M.b64 (M.gcmEncrypt (M.pbkdf2 (key?.getD []) salt) iv text).1]).length == 0) = false := by
      exact beq_eq_false_iff_ne.mpr hne
    simp [decryptText, hkey, hneb, hsplit, M.b64_left_inverse, hsalt, hiv,
      M.gcm_tag_len, M.gcm_left_inverse]

/-- Master secret used to evaluate the crypto theorems on closed inputs. -/
def demoKey : Str := "0123456789abcdef0123456789abcdef".data

/-- Salt of the length `crypto.randomBytes(64)` draws. -/
def demoSalt : Bytes := List.replicate 64 0

/-- Initialization vector of the length `crypto.randomBytes(16)` draws. -/
def demoIv : Bytes := List.replicate 16 0

/-- A short text with a multi-byte character and a newline. -/
def demoText : Str := "héllo\nzap".data

/-- Witness for C6: the round trip evaluated on a concrete multi-byte,
newline-containing text under the concrete crypto instance. -/
theorem c6_envelope_round_trip_witness :
    ∃ env, encryptText toyCrypto (some demoKey) demoSalt demoIv demoText = .ok env ∧
      decryptText toyCrypto (some demoKey) env = .ok demoText :=
  c6_envelope_round_trip toyCrypto (some demoKey) demoSalt demoIv demoText
    (by decide) (by decide) (by decide) rfl

theorem optTruthy_none : optTruthy none = false := rfl

/-- C1: the resolution gates run in the fixed order existence, expiration,
quota, delayed release, quiz, password.  Part 1: for an item with both a
quiz and a password configured whose earlier gates pass, a request carrying
a correct quiz answer but no password is denied with `passwordRequired` and
the state is untouched — content is never returned.  Part 2: for an item
whose `expiresAt` lies in the past, resolution is denied with `expired`
even when the view limit has not been reached and the supplied password is
correct. -/
theorem c1_gate_order :
    (∀ (B : BcryptModel) (M : CryptoModel) (key? : Option Str)
       (s : EngineState) (sid : Str) (quizAnswer : Option Str) (now : Int)
       (zap : Zap),
       findByShortId s sid = some zap →
       expiryGateFires zap now = false →
       quotaGateFires zap = false →
       lockGateFires zap now = false →
       hasQuizProtection zap = true →
       optTruthy quizAnswer = true →
       verifyQuizAnswer B (quizAnswer.getD []) (zap.quizAnswerHash.getD []) = true →
       optTruthy zap.passwordHash = true →
       resolveZap B M key? s sid none quizAnswer now = (.passwordRequired, s)) ∧
    (∀ (B : BcryptModel) (M : CryptoModel) (key? : Option Str)
       (s : EngineState) (sid : Str) (password quizAnswer : Option Str)
       (now e l : Int) (zap : Zap),
       findByShortId s sid = some zap →
       zap.expiresAt = some e → e < now →
       zap.viewLimit = some l → zap.viewCount < l →
       optTruthy zap.passwordHash = true →
       B.compare (password.getD []) (zap.passwordHash.getD []) = true →
       (resolveZap B M key? s sid password quizAnswer now).1 = .expired) := by
  constructor
  · intro B M key? s sid quizAnswer now zap hfind hexp hquota hlock hquiz hans
      hver hpw
    simp [resolveZap, hfind, hexp, hquota, hlock, quizGate, hquiz, hans, hver,
      passwordGate, hpw, optTruthy_none]
  · intro B M key? s sid password quizAnswer now e l zap hfind hexp hgt hlim
      hcount hpw hcmp
    simp [resolveZap, hfind, expiryGateFires, hexp, hgt]

/-- Quiz-and-password item used to evaluate the gate-order theorem. -/
def zapQuizPw : Zap :=
  { id := 1, shortId := "a".data, qrId := "qa".data, ztype := "TEXT".data
    name := none, cloudUrl := none, originalUrl := some ("http://x".data)
    passwordHash := some ("pw".data)
    quizQuestion := some ("q?".data), quizAnswerHash := some ("ans".data)
    unlockAt := none, expiresAt := none, viewLimit := none, viewCount := 0 }

/-- Expired item with password and unexhausted quota, for the same theorem. -/
def zapExpired : Zap :=
  { id := 2, shortId := "b".data, qrId := "qb".data, ztype := "TEXT".data
    name := none, cloudUrl := some ("https://blob/x.pdf".data)
    originalUrl := none
    passwordHash := some ("pw".data)
    quizQuestion := none, quizAnswerHash := none
    unlockAt := none, expiresAt := some 5, viewLimit := some 3, viewCount := 0 }

/-- Witness for C1: both gate-order facts evaluated on concrete items. -/
theorem c1_gate_order_witness :
    resolveZap plainBcrypt toyCrypto none ⟨[zapQuizPw], []⟩ "a".data none
      (some ("ans".data)) 0 = (.passwordRequired, ⟨[zapQuizPw], []⟩) ∧
    (resolveZap plainBcrypt toyCrypto none ⟨[zapExpired], []⟩ "b".data
      (some ("pw".data)) none 10).1 = .expired :=
  ⟨c1_gate_order.1 plainBcrypt toyCrypto none ⟨[zapQuizPw], []⟩ "a".data
      (some ("ans".data)) 0 zapQuizPw (by decide) (by decide) (by decide)
      (by decide) (by decide) (by decide) (by decide) (by decide),
   c1_gate_order.2 plainBcrypt toyCrypto none ⟨[zapExpired], []⟩ "b".data
      (some ("pw".data)) none 10 5 3 zapExpired (by decide) (by decide)
      (by decide) (by decide) (by decide) (by decide) (by decide)⟩

theorem deleteZapEager_zaps (s : EngineState) (zap : Zap) :
    (deleteZapEager s zap).zaps = s.zaps.filter (fun z => !(z.id == zap.id)) := by
  unfold deleteZapEager
  split <;> rfl

theorem serveContent_state (M : CryptoModel) (key? : Option Str) (zap : Zap)
    (s : EngineState) : (serveContent M key? zap s).2 = s := by
  simp only [serveContent]
  repeat' split
  all_goals rfl

theorem incrementPhase_state (M : CryptoModel) (key? : Option Str) (zap : Zap)
    (s : EngineState) (sid : Str) :
    (incrementPhase M key? zap s sid).2 =
      (condIncrViewCount (setViewCount s sid (zap.viewCount + 1)) sid).2 := by
  simp only [incrementPhase]
  split
  · rfl
  · exact serveContent_state ..

theorem quizGate_state (B : BcryptModel) (M : CryptoModel) (key? : Option Str)
    (zap : Zap) (s : EngineState) (sid : Str) (pw qa : Option Str) :
    (quizGate B M key? zap s sid pw qa).2 = s ∨
    (quizGate B M key? zap s sid pw qa).2 =
      (condIncrViewCount (setViewCount s sid (zap.viewCount + 1)) sid).2 := by
  unfold quizGate passwordGate
  repeat' split
  all_goals first
    | exact Or.inl rfl
    | exact Or.inr (incrementPhase_state ..)

/-- The post-increment store keeps `viewCount ≤ viewLimit` for every row,
given unique `shortId`s, the invariant on the pre-state, and the quota
pre-check having passed for the row being resolved. -/
theorem condIncr_setViewCount_inv (s : EngineState) (sid : Str) (zap : Zap)
    (hnodup : (s.zaps.map Zap.shortId).Nodup)
    (hinv : ∀ z ∈ s.zaps, ∀ l, z.viewLimit = some l → z.viewCount ≤ l)
    (hmem : zap ∈ s.zaps) (hsid : zap.shortId = sid)
    (hquota : quotaGateFires zap = false) :
    ∀ z' ∈ ((condIncrViewCount (setViewCount s sid (zap.viewCount + 1)) sid).2).zaps,
      ∀ l, z'.viewLimit = some l → z'.viewCount ≤ l := by
  intro z' hz' l hl
  simp only [condIncrViewCount, setViewCount, List.map_map, List.mem_map,
    Function.comp_def] at hz'
  obtain ⟨z0, hz0, rfl⟩ := hz'
  by_cases hb : (z0.shortId == sid) = true
  · have hz0zap : z0 = zap :=
      List.inj_on_of_nodup_map hnodup hz0 hmem (by rw [hsid]; exact eq_of_beq hb)
    subst hz0zap
    rcases hvl : z0.viewLimit with _ | l0
    · simp [hb, condIncrMatches, hvl] at hl
    · have hlt : z0.viewCount < l0 := by
        simpa [quotaGateFires, hvl] using hquota
      by_cases hc : z0.viewCount + 1 < l0
      · simp [hb, condIncrMatches, hvl, hc] at hl ⊢
        omega
      · simp [hb, condIncrMatches, hvl, hc] at hl ⊢
        omega
  · have hb' : (z0.shortId == sid) = false := by
      simpa using hb
    simp [hb', condIncrMatches] at hl ⊢
    exact hinv z0 hz0 l hl

/-- C2 amended: for every store with unique `shortId`s in which every row
satisfies `viewCount ≤ viewLimit` (when the limit is non-null), the rows
left by a resolution — of any outcome — still satisfy it: the over-quota
pre-check deletes a violating row outright, the unconditional first
increment is covered by that pre-check, and the second increment is
conditional by construction.  (The unamended claim's "only successful
resolutions mutate `viewCount`" is refuted by `c2_counterexample`.) -/
theorem c2_view_limit_invariant (B : BcryptModel) (M : CryptoModel)
    (key? : Option Str) (s : EngineState) (sid : Str)
    (password quizAnswer : Option Str) (now : Int)
    (hnodup : (s.zaps.map Zap.shortId).Nodup)
    (hinv : ∀ z ∈ s.zaps, ∀ l, z.viewLimit = some l → z.viewCount ≤ l) :
    ∀ z' ∈ (resolveZap B M key? s sid password quizAnswer now).2.zaps,
      ∀ l, z'.viewLimit = some l → z'.viewCount ≤ l := by
  unfold resolveZap
  rcases hfind : findByShortId s sid with _ | zap
  · simpa using hinv
  · have hmem : zap ∈ s.zaps := List.mem_of_find?_eq_some hfind
    have hsid : zap.shortId = sid := by
      have := List.find?_some hfind
      simpa using this
    have hdel : ∀ z' ∈ (deleteZapEager s zap).zaps,
        ∀ l, z'.viewLimit = some l → z'.viewCount ≤ l := by
      intro z' hz'
      rw [deleteZapEager_zaps] at hz'
      exact hinv z' (List.mem_of_mem_filter hz')
    by_cases hexp : expiryGateFires zap now = true
    · simpa [hexp] using hdel
    · rw [Bool.not_eq_true] at hexp
      by_cases hquota : quotaGateFires zap = true
      · simpa [hexp, hquota] using hdel
      · rw [Bool.not_eq_true] at hquota
        by_cases hlock : lockGateFires zap now = true
        · simpa [hexp, hquota, hlock] using hinv
        · rw [Bool.not_eq_true] at hlock
          simp only [hexp, hquota, hlock, Bool.false_eq_true, if_false]
          rcases quizGate_state B M key? zap s sid password quizAnswer with h | h
          · rw [h]; exact hinv
          · rw [h]
            exact condIncr_setViewCount_inv s sid zap hnodup hinv hmem hsid hquota

/-- Item with `viewLimit = 1` and no gates, for the C2 counterexample and
the C3 evaluation. -/
def zapLimitOne : Zap :=
  { id := 3, shortId := "c".data, qrId := "qc".data, ztype := "URL".data
    name := none, cloudUrl := some ("https://t".data)
    originalUrl := some ("https://t".data)
    passwordHash := none, quizQuestion := none, quizAnswerHash := none
    unlockAt := none, expiresAt := none, viewLimit := some 1, viewCount := 0 }

/-- Counterexample to C2 as stated: a resolution that is denied (it returns
the final-quota denial, not content) nevertheless mutates the persisted
`viewCount` from 0 to 1 — so successful resolutions are not the only
mutations of `viewCount`, and the unconditional first increment is guarded
by the pre-check rather than by construction. -/
theorem c2_counterexample :
    (resolveZap plainBcrypt toyCrypto none ⟨[zapLimitOne], []⟩ "c".data
      none none 0).1 = .quotaExhaustedFinal ∧
    ((resolveZap plainBcrypt toyCrypto none ⟨[zapLimitOne], []⟩ "c".data
      none none 0).2.zaps.map Zap.viewCount) = [1] := by
  constructor <;> rfl

/-- Witness for the amended C2: the limit-one row left stored after a
resolution still satisfies its view limit. -/
theorem c2_view_limit_invariant_witness :
    ({ zapLimitOne with viewCount := 1 } : Zap).viewCount ≤ 1 :=
  c2_view_limit_invariant plainBcrypt toyCrypto none
    ⟨[zapQuizPw, zapLimitOne], []⟩ ("c".data) none none 0 (by decide)
    (by decide) { zapLimitOne with viewCount := 1 } (by decide) 1 (by decide)

/-- The record `createZap` builds for the end-to-end run of C3: text content
`"secret note"`, `viewLimit = 1`, password `"P@ss1234"`. -/
def c3Created : Except CreateErr Zap :=
  createTextZap plainBcrypt toyCrypto (some demoKey) demoSalt demoIv 7
    "s1".data ("q1".data) (some ("note".data)) "secret note".data
    (some ("P@ss1234".data)) (some 1) none

/-- The created record itself. -/
def c3Zap : Zap :=
  match c3Created with
  | .ok z => z
  | .error _ => zapLimitOne

/-- C3, evaluated at its failing input: creation succeeds, but the very
first resolution with the correct password is denied with the final quota
denial (410 "Zap view limit reached.") instead of returning the text, and
the persisted `viewCount` is already 1 — the handler's unconditional
`viewCount: zap.viewCount + 1` update runs before the conditional raw
increment, so a `viewLimit = 1` item is never viewable. -/
theorem c3_first_resolve_denied :
    c3Created = .ok c3Zap ∧
    (resolveZap plainBcrypt toyCrypto (some demoKey) ⟨[c3Zap], []⟩ "s1".data
      (some ("P@ss1234".data)) none 0).1 = .quotaExhaustedFinal ∧
    ((resolveZap plainBcrypt toyCrypto (some demoKey) ⟨[c3Zap], []⟩ "s1".data
      (some ("P@ss1234".data)) none 0).2.zaps.map Zap.viewCount) = [1] :=
  ⟨rfl, rfl, rfl⟩

/-- The denials that leave every stored record and blob untouched. -/
def isPureDenial : ResolveResult → Bool
  | .notFound => true
  | .locked _ => true
  | .quizRequired _ => true
  | .quizFailed => true
  | .passwordRequired => true
  | .passwordInvalid => true
  | _ => false

theorem quizGate_cases (B : BcryptModel) (M : CryptoModel) (key? : Option Str)
    (zap : Zap) (s : EngineState) (sid : Str) (pw qa : Option Str) :
    quizGate B M key? zap s sid pw qa = incrementPhase M key? zap s sid ∨
    quizGate B M key? zap s sid pw qa = (.quizRequired zap.quizQuestion, s) ∨
    quizGate B M key? zap s sid pw qa = (.quizFailed, s) ∨
    quizGate B M key? zap s sid pw qa = (.passwordRequired, s) ∨
    quizGate B M key? zap s sid pw qa = (.passwordInvalid, s) := by
  unfold quizGate passwordGate
  repeat' split
  all_goals tauto

theorem incrementPhase_not_pure (M : CryptoModel) (key? : Option Str)
    (zap : Zap) (s : EngineState) (sid : Str) :
    isPureDenial (incrementPhase M key? zap s sid).1 = false := by
  simp only [incrementPhase, serveContent]
  repeat' split
  all_goals rfl

/-- C4 amended: the denials that carry no quota or expiry side effect —
`notFound`, `locked`, `quizRequired`, `quizFailed`, `passwordRequired`,
`passwordInvalid` — leave the whole engine state (records, counters, blobs)
unchanged.  (The unamended "every gate denial is side-effect free" is
refuted by `c4_counterexample`: the expiry and quota pre-check denials
eagerly release the blob and delete the record, and the final-quota denial
keeps an increment.) -/
theorem c4_pure_denials_frame (B : BcryptModel) (M : CryptoModel)
    (key? : Option Str) (s : EngineState) (sid : Str) (pw qa : Option Str)
    (now : Int)
    (h : isPureDenial (resolveZap B M key? s sid pw qa now).1 = true) :
    (resolveZap B M key? s sid pw qa now).2 = s := by
  unfold resolveZap at h ⊢
  rcases hfind : findByShortId s sid with _ | zap
  · rfl
  · rw [hfind] at h
    by_cases hexp : expiryGateFires zap now = true
    · simp [hexp, isPureDenial] at h
    · rw [Bool.not_eq_true] at hexp
      by_cases hq : quotaGateFires zap = true
      · simp [hexp, hq, isPureDenial] at h
      · rw [Bool.not_eq_true] at hq
        by_cases hlock : lockGateFires zap now = true
        · simp [hexp, hq, hlock]
        · rw [Bool.not_eq_true] at hlock
          simp only [hexp, hq, hlock, Bool.false_eq_true, if_false] at h ⊢
          rcases quizGate_cases B M key? zap s sid pw qa with hc | hc | hc | hc | hc <;>
            rw [hc] at h ⊢
          · simp [incrementPhase_not_pure] at h

/-- Counterexample to C4 as stated: the `expired` denial releases the
item's blob and deletes its record — resolution denials are not
side-effect free, and deletion is not confined to the sweeper. -/
theorem c4_counterexample :
    (resolveZap plainBcrypt toyCrypto none ⟨[zapExpired], []⟩ "b".data
      none none 10).1 = .expired ∧
    (resolveZap plainBcrypt toyCrypto none ⟨[zapExpired], []⟩ "b".data
      none none 10).2.zaps = [] ∧
    (resolveZap plainBcrypt toyCrypto none ⟨[zapExpired], []⟩ "b".data
      none none 10).2.releasedBlobs = ["https://blob/x.pdf".data] :=
  ⟨rfl, rfl, rfl⟩

/-- Time-locked quiz item: `unlockAt` in the future of `now = 0`. -/
def zapLockedQuiz : Zap :=
  { id := 4, shortId := "d".data, qrId := "qd".data, ztype := "PDF".data
    name := some ("doc".data), cloudUrl := some ("https://blob/d.pdf".data)
    originalUrl := none
    passwordHash := some ("pw".data)
    quizQuestion := some ("q?".data), quizAnswerHash := some ("ans".data)
    unlockAt := some 100, expiresAt := none, viewLimit := some 3
    viewCount := 1 }

/-- Witness for the amended C4: a locked item's denial leaves the state
unchanged. -/
theorem c4_pure_denials_frame_witness :
    (resolveZap plainBcrypt toyCrypto none ⟨[zapLockedQuiz], []⟩ "d".data
      none none 0).2 = ⟨[zapLockedQuiz], []⟩ :=
  c4_pure_denials_frame plainBcrypt toyCrypto none ⟨[zapLockedQuiz], []⟩
    "d".data none none 0 (by decide)

/-- C5 amended: identifier allocation in `createZap` is a single `nanoid()`
draw per id with no store lookup and no retry.  Part 1: when the drawn
candidate pair collides with an existing row, creation fails at the insert
with the store's unique-constraint violation, surfaced by the blanket catch
as the generic 500 "Internal server error" — there is no distinct
`CapacityExhausted` kind anywhere in the handler.  Part 2: the outcome
depends only on the first two generator outputs, so no retry with a fresh
candidate ever happens. -/
theorem c5_no_retry_no_capacity_error :
    (∀ (B : BcryptModel) (M : CryptoModel) (key? : Option Str)
       (salt iv : Bytes) (gen : Nat → Str) (s : EngineState) (newId : Nat)
       (name : Option Str) (text : Str) (password : Option Str)
       (viewLimit expiresAt : Option Int),
       text.length ≤ 10000 → text ≠ [] →
       validateEncryptionKey key? = .ok () →
       (s.zaps.any fun z => z.shortId == gen 0 || z.qrId == gen 1) = true →
       createZapFull B M key? salt iv gen s newId name text password
         viewLimit expiresAt = .error .uniqueViolation ∧
       createErrStatus .uniqueViolation = (500, "Internal server error".data)) ∧
    (∀ (B : BcryptModel) (M : CryptoModel) (key? : Option Str)
       (salt iv : Bytes) (gen gen2 : Nat → Str) (s : EngineState) (newId : Nat)
       (name : Option Str) (text : Str) (password : Option Str)
       (viewLimit expiresAt : Option Int),
       gen 0 = gen2 0 → gen 1 = gen2 1 →
       createZapFull B M key? salt iv gen s newId name text password
         viewLimit expiresAt =
       createZapFull B M key? salt iv gen2 s newId name text password
         viewLimit expiresAt) := by
  constructor
  · intro B M key? salt iv gen s newId name text password viewLimit expiresAt
      hlen hne hkey htaken
    have hlenb : (text.length > 10000) = False := by simp; omega
    have hlen0 : (text.length == 0) = false := by
      cases text with
      | nil => exact absurd rfl hne
      | cons a l => rfl
    refine ⟨?_, rfl⟩
    simp [createZapFull, createTextZap, hlenb, encryptText, hkey, hlen0, htaken]
  · intro B M key? salt iv gen gen2 s newId name text password viewLimit
      expiresAt h0 h1
    unfold createZapFull
    rw [h0, h1]

/-- Generator whose every candidate is the same taken id. -/
def constGen : Nat → Str := fun _ => "CCCCCCCC".data

/-- A stored row occupying the only candidate `constGen` ever draws. -/
def zapTaken : Zap :=
  { id := 9, shortId := "CCCCCCCC".data, qrId := "CCCCCCCC".data
    ztype := "URL".data, name := none, cloudUrl := some ("https://t".data)
    originalUrl := some ("https://t".data), passwordHash := none
    quizQuestion := none, quizAnswerHash := none, unlockAt := none
    expiresAt := none, viewLimit := none, viewCount := 0 }

/-- Counterexample to C5 as stated: with every candidate taken, creation
fails on the first and only attempt with the generic internal error — not
with a `CapacityExhausted` kind after 5 existence checks; no such kind
exists in the code. -/
theorem c5_counterexample :
    createZapFull plainBcrypt toyCrypto (some demoKey) demoSalt demoIv
      constGen ⟨[zapTaken], []⟩ 10 none ("note".data) none none none =
      .error .uniqueViolation ∧
    createErrStatus .uniqueViolation = (500, "Internal server error".data) :=
  ⟨rfl, rfl⟩

/-- Witness for the amended C5 at the same concrete inputs. -/
theorem c5_no_retry_witness :
    (createZapFull plainBcrypt toyCrypto (some demoKey) demoSalt demoIv
      constGen ⟨[zapTaken], []⟩ 10 none ("note".data) none none none =
      .error .uniqueViolation ∧
     createErrStatus .uniqueViolation = (500, "Internal server error".data)) ∧
    createZapFull plainBcrypt toyCrypto (some demoKey) demoSalt demoIv
      constGen ⟨[zapTaken], []⟩ 10 none ("note".data) none none none =
    createZapFull plainBcrypt toyCrypto (some demoKey) demoSalt demoIv
      (fun n => constGen (n + 2)) ⟨[zapTaken], []⟩ 10 none ("note".data) none
      none none :=
  ⟨c5_no_retry_no_capacity_error.1 plainBcrypt toyCrypto (some demoKey)
      demoSalt demoIv constGen ⟨[zapTaken], []⟩ 10 none ("note".data) none
      none none (by decide) (by decide) rfl (by decide),
   c5_no_retry_no_capacity_error.2 plainBcrypt toyCrypto (some demoKey)
      demoSalt demoIv constGen (fun n => constGen (n + 2)) ⟨[zapTaken], []⟩
      10 none ("note".data) none none none rfl rfl⟩

/-- C7 amended: the quiz gate accepts a supplied answer exactly when it
equals, verbatim, the creator's answer lowercased and trimmed — the
normalization runs only at hashing time (`hashQuizAnswer`), never on the
supplied answer (`verifyQuizAnswer` compares it raw), so case or whitespace
variants of the stored normal form are rejected. -/
theorem c7_quiz_matching (B : BcryptModel) (supplied creator : Str) :
    verifyQuizAnswer B supplied (hashQuizAnswer B creator) =
      (supplied == jsToLower (jsTrim creator)) := by
  simp [verifyQuizAnswer, hashQuizAnswer, B.compare_hash]

/-- Counterexample to C7 as stated: the supplied answer `"A"` differs from
the creator's answer `"a"` only in letter case, yet the gate rejects it; a
leading-space variant `" a"` is rejected too. -/
theorem c7_counterexample :
    verifyQuizAnswer plainBcrypt ("A".data)
      (hashQuizAnswer plainBcrypt ("a".data)) = false ∧
    verifyQuizAnswer plainBcrypt (" a".data)
      (hashQuizAnswer plainBcrypt ("a".data)) = false ∧
    verifyQuizAnswer plainBcrypt ("a".data)
      (hashQuizAnswer plainBcrypt ("a".data)) = true :=
  ⟨rfl, rfl, rfl⟩

/-- Witness for the amended C7: evaluation on `"Paris "` as the creator's
answer, whose stored normal form is `"paris"`. -/
theorem c7_quiz_matching_witness :
    verifyQuizAnswer plainBcrypt ("paris".data)
      (hashQuizAnswer plainBcrypt ("Paris ".data)) =
      ("paris".data == jsToLower (jsTrim ("Paris ".data))) :=
  c7_quiz_matching plainBcrypt ("paris".data) ("Paris ".data)

/-- The selection predicate of sweep pass 1: `expiresAt` strictly in the
past. -/
def isExpiredRow (now : Int) (z : Zap) : Bool :=
  match z.expiresAt with
  | some e => decide (e < now)
  | none => false

/-- The selection predicate of sweep pass 2: non-null limit reached. -/
def isOverQuotaRow (z : Zap) : Bool :=
  match z.viewLimit with
  | some l => decide (z.viewCount ≥ l)
  | none => false

theorem destroyZapState_removes (p : Zap → Bool) (s : EngineState) :
    ∀ z ∈ (destroyZapState s ((s.zaps.filter p).map Zap.shortId)).zaps,
      p z = false := by
  intro z hz
  simp only [destroyZapState, List.mem_filter] at hz
  obtain ⟨hmem, hnc⟩ := hz
  by_contra hp
  rw [Bool.not_eq_false] at hp
  have hzin : z ∈ s.zaps.filter p := List.mem_filter.mpr ⟨hmem, hp⟩
  have hsid : z.shortId ∈ (s.zaps.filter p).map Zap.shortId :=
    List.mem_map_of_mem Zap.shortId hzin
  simp [List.contains, List.elem_eq_mem, hsid] at hnc

theorem destroyZapState_blobs (s : EngineState) (sids : List Str) :
    (destroyZapState s sids).releasedBlobs = s.releasedBlobs := rfl

/-- C8 amended: each sweep pass removes from the store every record it
selects — after pass 1 no expired record remains, after pass 2 no
over-quota record remains — but neither pass releases any external blob:
the sweeper's `destroyZap` is a record-only `deleteMany`. -/
theorem c8_sweep_deletes_without_release (s : EngineState) (now : Int) :
    (∀ z ∈ (deleteExpiredZaps s now).zaps, isExpiredRow now z = false) ∧
    (deleteExpiredZaps s now).releasedBlobs = s.releasedBlobs ∧
    (∀ z ∈ (deleteOverLimitZaps s).zaps, isOverQuotaRow z = false) ∧
    (deleteOverLimitZaps s).releasedBlobs = s.releasedBlobs := by
  refine ⟨?_, ?_, ?_, ?_⟩
  · intro z hz
    simp only [deleteExpiredZaps] at hz
    split at hz
    · rename_i hempty
      have hnil : s.zaps.filter (fun z =>
          match z.expiresAt with
          | some e => decide (e < now)
          | none => false) = [] := by
        rwa [← List.length_eq_zero, ← Nat.beq_eq_true_eq]
      by_contra hp
      rw [Bool.not_eq_false] at hp
      have : z ∈ s.zaps.filter (fun z =>
          match z.expiresAt with
          | some e => decide (e < now)
          | none => false) := List.mem_filter.mpr ⟨hz, hp⟩
      rw [hnil] at this
      exact absurd this (List.not_mem_nil z)
    · exact destroyZapState_removes _ s z hz
  · simp only [deleteExpiredZaps]
    split <;> rfl
  · intro z hz
    simp only [deleteOverLimitZaps] at hz
    split at hz
    · rename_i hempty
      have hnil : s.zaps.filter (fun z =>
          match z.viewLimit with
          | some l => decide (z.viewCount ≥ l)
          | none => false) = [] := by
        rwa [← List.length_eq_zero, ← Nat.beq_eq_true_eq]
      by_contra hp
      rw [Bool.not_eq_false] at hp
      have : z ∈ s.zaps.filter (fun z =>
          match z.viewLimit with
          | some l => decide (z.viewCount ≥ l)
          | none => false) := List.mem_filter.mpr ⟨hz, hp⟩
      rw [hnil] at this
      exact absurd this (List.not_mem_nil z)
    · exact destroyZapState_removes _ s z hz
  · simp only [deleteOverLimitZaps]
    split <;> rfl

/-- Counterexample to C8 as stated: sweeping a store holding one expired
item with an external blob deletes the record but releases nothing — the
sweep is delete-only, not release-then-delete. -/
theorem c8_counterexample :
    (deleteExpiredZaps ⟨[zapExpired], []⟩ 10).zaps = [] ∧
    (deleteExpiredZaps ⟨[zapExpired], []⟩ 10).releasedBlobs = [] :=
  ⟨rfl, rfl⟩

/-- C9: with the master secret absent, sealing and opening both fail with
the configuration-missing error — a kind distinct from every
corrupted-envelope kind (wrong field count, wrong field lengths, failed
authentication) — while resolving a non-textual item (external blob / plain
redirect) succeeds without ever touching the envelope. -/
theorem c9_missing_secret :
    (∀ (M : CryptoModel) (salt iv : Bytes) (text : Str),
       encryptText M none salt iv text = .error .configMissing) ∧
    (∀ (M : CryptoModel) (enc : Str),
       decryptText M none enc = .error .configMissing) ∧
    (EncError.configMissing ≠ .badFormat ∧ EncError.configMissing ≠ .badSaltLen ∧
     EncError.configMissing ≠ .badIvLen ∧ EncError.configMissing ≠ .badTagLen ∧
     EncError.configMissing ≠ .authFailed) ∧
    (∀ (B : BcryptModel) (M : CryptoModel) (s : EngineState) (sid : Str)
       (now : Int) (zap : Zap) (url : Str),
       findByShortId s sid = some zap →
       expiryGateFires zap now = false →
       quotaGateFires zap = false →
       lockGateFires zap now = false →
       hasQuizProtection zap = false →
       optTruthy zap.passwordHash = false →
       zap.viewLimit = none →
       zap.originalUrl = none →
       zap.cloudUrl = some url → strTruthy url = true →
       (resolveZap B M none s sid none none now).1 = .contentFile url) := by
  refine ⟨?_, ?_, by simp, ?_⟩
  · intro M salt iv text
    rfl
  · intro M enc
    rfl
  · intro B M s sid now zap url hfind hexp hq hlock hquiz hpw hvl hourl hcurl
      hurl
    have hmem : zap ∈ s.zaps := List.mem_of_find?_eq_some hfind
    have hsid : (zap.shortId == sid) = true := by
      have := List.find?_some hfind
      simpa using this
    have hrow : ({ zap with viewCount := zap.viewCount + 1 } : Zap) ∈
        (setViewCount s sid (zap.viewCount + 1)).zaps := by
      simp only [setViewCount, List.mem_map]
      exact ⟨zap, hmem, by rw [hsid]; simp⟩
    have hmatch : condIncrMatches sid ({ zap with viewCount := zap.viewCount + 1 } : Zap) = true := by
      simp [condIncrMatches, hsid, hvl]
    have hcount :
        (((setViewCount s sid (zap.viewCount + 1)).zaps.filter
          (condIncrMatches sid)).length == 0) = false := by
      have : ({ zap with viewCount := zap.viewCount + 1 } : Zap) ∈
          (setViewCount s sid (zap.viewCount + 1)).zaps.filter
            (condIncrMatches sid) := List.mem_filter.mpr ⟨hrow, hmatch⟩
      rcases hfil : (setViewCount s sid (zap.viewCount + 1)).zaps.filter
          (condIncrMatches sid) with _ | ⟨a, l⟩
      · rw [hfil] at this
        exact absurd this (List.not_mem_nil _)
      · rfl
    unfold resolveZap
    rw [hfind]
    simp only [hexp, hq, hlock, Bool.false_eq_true, if_false]
    unfold quizGate passwordGate
    simp only [hquiz, hpw, Bool.false_eq_true, if_false]
    simp only [incrementPhase, condIncrViewCount, hcount, Bool.false_eq_true,
      if_false]
    simp [serveContent, hourl, hcurl, hurl, optTruthy_none]

/-- Plain-redirect item with no gates and no view limit. -/
def zapFileOnly : Zap :=
  { id := 11, shortId := "f".data, qrId := "qf".data, ztype := "PDF".data
    name := none, cloudUrl := some ("https://blob/f.pdf".data)
    originalUrl := none, passwordHash := none, quizQuestion := none
    quizAnswerHash := none, unlockAt := none, expiresAt := none
    viewLimit := none, viewCount := 0 }

/-- Witness for C9: both failures and a successful keyless non-textual
resolution, evaluated concretely. -/
theorem c9_missing_secret_witness :
    encryptText toyCrypto none demoSalt demoIv demoText =
      .error .configMissing ∧
    decryptText toyCrypto none ("x:y:z:w".data) = .error .configMissing ∧
    (resolveZap plainBcrypt toyCrypto none ⟨[zapFileOnly], []⟩ "f".data
      none none 0).1 = .contentFile ("https://blob/f.pdf".data) :=
  ⟨c9_missing_secret.1 toyCrypto demoSalt demoIv demoText,
   c9_missing_secret.2.1 toyCrypto ("x:y:z:w".data),
   c9_missing_secret.2.2.2 plainBcrypt toyCrypto ⟨[zapFileOnly], []⟩
     "f".data 0 zapFileOnly ("https://blob/f.pdf".data) rfl rfl rfl rfl rfl
     rfl rfl rfl rfl rfl⟩

/-- C10: for a stored item that exists, is not expired, and has quota
remaining, the metadata endpoint succeeds with no credential parameter of
any kind and returns the configured quiz question together with the
delayed-release flags — also when `unlockAt` is still in the future. -/
theorem c10_metadata_discloses_quiz (s : EngineState) (sid : Str) (now : Int)
    (zap : Zap)
    (hfind : findByShortId s sid = some zap)
    (hexp : (match zap.expiresAt with
             | some e => decide (now > e)
             | none => false) = false)
    (hquota : (numTruthy zap.viewLimit &&
      decide (zap.viewCount ≥ zap.viewLimit.getD 0)) = false)
    (hquiz : optTruthy zap.quizQuestion = true) :
    ∃ m, getZapMetadata s sid now = .ok m ∧
      m.quizQuestion = zap.quizQuestion ∧
      m.hasQuiz = true ∧
      m.unlockAt = zap.unlockAt ∧
      m.isDelayedLocked = (match zap.unlockAt with
                           | some u => decide (now < u)
                           | none => false) := by
  refine ⟨{ name := zap.name, ztype := zap.ztype
            hasQuiz := optTruthy zap.quizQuestion
            quizQuestion :=
              if optTruthy zap.quizQuestion then zap.quizQuestion else none
            hasDelayedAccess := zap.unlockAt.isSome
            isDelayedLocked :=
              match zap.unlockAt with
              | some u => decide (now < u)
              | none => false
            unlockAt := zap.unlockAt
            hasPassword := optTruthy zap.passwordHash
            viewsRemaining :=
              if numTruthy zap.viewLimit then
                some (max 0 (zap.viewLimit.getD 0 - zap.viewCount))
              else none }, ?_, ?_, hquiz, rfl, rfl⟩
  · unfold getZapMetadata
    rw [hfind]
    simp only [hexp, hquota, Bool.false_eq_true, if_false]
  · simp [hquiz]

/-- Witness for C10: the time-locked quiz item (`unlockAt = 100`, `now = 0`)
discloses its quiz question through the metadata endpoint. -/
theorem c10_metadata_discloses_quiz_witness :
    ∃ m, getZapMetadata ⟨[zapLockedQuiz], []⟩ "d".data 0 = .ok m ∧
      m.quizQuestion = zapLockedQuiz.quizQuestion ∧
      m.hasQuiz = true ∧
      m.unlockAt = zapLockedQuiz.unlockAt ∧
      m.isDelayedLocked = (match zapLockedQuiz.unlockAt with
                           | some u => decide ((0 : Int) < u)
                           | none => false) :=
  c10_metadata_discloses_quiz ⟨[zapLockedQuiz], []⟩ "d".data 0 zapLockedQuiz
    rfl rfl rfl rfl
